import Mathlib

/-!
A shallow embedding of the exam-submission pipeline of `src/TestPro.js`:
the data model (Question, Submission, Result documents), the per-submission
processing logic of `processNextSubmission` (lines 643-700), the scoring
loop, the CA-score generation, the access-control gate of the student login
route (lines 351-390), and the bounded-concurrency FIFO submission queue
(`submissionQueue` / `activeSubmissions`, lines 15-16, 643-706).

Conventions: JavaScript strings are `String`; a missing or empty request
field is the empty string (both are falsy in the JS guards used by the
code).  The `answers` request field may be any JS value, modelled by
`AnswersVal`; `typeof answers === "object"` holds for `null` and for
objects.  Mongoose documents are records in append-only lists inside
`Store`; `findOne` is `List.find?` on the insertion order.  `Math.random()`
is modelled as a rational parameter `r` with `0 ≤ r < 1`.
-/

namespace TestPro

/-- The JS value found in the `answers` field of a submission request body.
`undef` is `undefined` (field absent), `prim` is any non-object primitive
(string/number/boolean), `obj` is a plain object viewed as an association
list from question id to the chosen option label. -/
inductive AnswersVal where
  | undef : AnswersVal
  | null : AnswersVal
  | prim : String → AnswersVal
  | obj : List (String × String) → AnswersVal
deriving DecidableEq, Repr

/-- `typeof answers === "object"` — true for plain objects and for `null`
(the classic JS `typeof null` quirk), false for `undefined` and other
primitives. -/
def jsTypeofIsObject : AnswersVal → Bool
  | .null => true
  | .obj _ => true
  | _ => false

/-- A document of the `Question` model (`questionSchema`, lines 87-93).
Option texts are irrelevant to the pipeline and omitted; `id` is the
string form of the Mongo `_id` used to key the answer map. -/
structure Question where
  id : String
  courseCode : String
  questionText : String
  correctAnswer : String
deriving DecidableEq, Repr

/-- A document of the `Submission` model (`submissionSchema`, lines 78-85):
the raw audit record written by the pipeline. -/
structure SubmissionRec where
  matric : String
  name : String
  department : String
  courseCode : String
  answers : AnswersVal
deriving DecidableEq, Repr

/-- A document of the `Result` model (`resultSchema`, lines 95-103). -/
structure ResultRec where
  studentMatric : String
  courseCode : String
  score : ℕ
  total : ℕ
  caScore : ℕ
  totalScore : ℕ
deriving DecidableEq, Repr

/-- The MongoDB collections touched by the submission pipeline.  Documents
are kept in insertion order; `findOne` is first-match. -/
structure Store where
  questions : List Question
  submissions : List SubmissionRec
  results : List ResultRec
deriving DecidableEq, Repr

/-- The request body of `POST /api/exams/:courseCode/submit` as destructured
on line 650.  A missing string field is `""` (falsy either way). -/
structure Payload where
  matric : String
  name : String
  department : String
  courseCode : String
  answers : AnswersVal
deriving DecidableEq, Repr

/-- An HTTP response: status code plus the JSON body as key/value pairs.
Every response produced by the submission pipeline carries only string
fields (a single `message`). -/
structure HttpResponse where
  status : ℕ
  body : List (String × String)
deriving DecidableEq, Repr

/-- `answers[k]` on a JS object: the value at key `k`, `none` for a missing
property (i.e. `undefined`). -/
def lookupAnswer (m : List (String × String)) (k : String) : Option String :=
  (m.find? (fun kv => kv.1 == k)).map (fun kv => kv.2)

/-- The guard of the scoring loop (line 669):
`answers[q._id] && answers[q._id] === q.correctAnswer`.
The first conjunct is JS truthiness, so an empty-string answer is rejected
before the strict comparison runs. -/
def answerMatches (m : List (String × String)) (q : Question) : Bool :=
  match lookupAnswer m q.id with
  | some a => (a != "") && (a == q.correctAnswer)
  | none => false

/-- The raw objective score computed by the `questions.forEach` loop
(lines 667-672). -/
def rawScore (qs : List Question) (m : List (String × String)) : ℕ :=
  (qs.filter (answerMatches m)).length

/-- Written from the spec text, for refinement comparison only: the raw
score is "the number of questions whose entry in the answer map exactly
(case-sensitively) equals the stored correct-answer label". -/
def specRawScore (qs : List Question) (m : List (String × String)) : ℕ :=
  (qs.filter (fun q => lookupAnswer m q.id == some q.correctAnswer)).length

/-- The spec counting rule amended by the truthiness guard of line 669:
an entry scores only when it is present, non-empty, and equal to the
stored correct-answer label. -/
def specRawScoreNonempty (qs : List Question) (m : List (String × String)) : ℕ :=
  (qs.filter (fun q =>
    ((lookupAnswer m q.id).getD "" != "") &&
      (lookupAnswer m q.id == some q.correctAnswer))).length

/-- `Question.find({ courseCode })` (line 666): the question set of the
course, matched exactly (case-sensitively) on the course code. -/
def courseQuestions (st : Store) (courseCode : String) : List Question :=
  st.questions.filter (fun q => q.courseCode == courseCode)

/-- `Math.floor(Math.random() * (35 - 20 + 1)) + 20` (line 675), with the
`Math.random()` draw exposed as the rational `r` (intended range
`0 ≤ r < 1`). -/
def caScore (r : ℚ) : ℕ :=
  (⌊r * (35 - 20 + 1 : ℚ)⌋).toNat + 20

/-- `Submission.findOne({ matric, courseCode })` (line 657) viewed as an
existence test: the duplicate-submission check queries the Submission
collection. -/
def hasSubmission (st : Store) (matric courseCode : String) : Bool :=
  st.submissions.any (fun s => s.matric == matric && s.courseCode == courseCode)

/-- `Result.findOne({ studentMatric, courseCode })` (line 679), the
idempotency re-check immediately before the Result write; also the read
path for persisted results. -/
def findResult (st : Store) (matric courseCode : String) : Option ResultRec :=
  st.results.find? (fun rr => rr.studentMatric == matric && rr.courseCode == courseCode)

/-- Whether a Result document exists for the (student, course) pair. -/
def hasResult (st : Store) (matric courseCode : String) : Bool :=
  (findResult st matric courseCode).isSome

/-- The body of `processNextSubmission` for one admitted submission
(lines 650-695), with the already-generated CA score `ca` as a parameter:
validation, duplicate check against the Submission collection, audit
write, scoring, guarded Result write, success response.  The `catch`
branch responds 500 and, because Mongoose's `required` validation rejects
a `null` value for the required `answers` field before anything is
written, a `null` answer map (which passes the `typeof` check) surfaces
as a 500 with nothing persisted; likewise a missing required
`name`/`department` makes `Submission.create` throw. -/
def processSubmissionWith (p : Payload) (ca : ℕ) (st : Store) : Store × HttpResponse :=
  if p.matric == "" || p.courseCode == "" || !jsTypeofIsObject p.answers then
    (st, ⟨400, [("message", "Missing or invalid submission data.")]⟩)
  else if hasSubmission st p.matric p.courseCode then
    (st, ⟨409, [("message", "Submission already exists.")]⟩)
  else
    match p.answers with
    | .obj m =>
      if p.name == "" || p.department == "" then
        (st, ⟨500, [("message", "Submission failed")]⟩)
      else
        let st1 : Store :=
          { st with submissions :=
              st.submissions ++ [⟨p.matric, p.name, p.department, p.courseCode, p.answers⟩] }
        let qs := courseQuestions st p.courseCode
        let score := rawScore qs m
        let st2 : Store :=
          if hasResult st1 p.matric p.courseCode then st1
          else
            { st1 with results :=
                st1.results ++ [⟨p.matric, p.courseCode, score, qs.length, ca, score + ca⟩] }
        (st2, ⟨200, [("message", "Exam submitted successfully")]⟩)
    | _ =>
      (st, ⟨500, [("message", "Submission failed")]⟩)

/-- One admitted submission's processing (lines 650-695), drawing the CA
score from the random value `r` exactly as line 675 does. -/
def processSubmission (p : Payload) (r : ℚ) (st : Store) : Store × HttpResponse :=
  processSubmissionWith p (caScore r) st

/-! ### Access-control gate

The login route (lines 351-390) gates exam access by three predicates, in
order: the global session flag (`SessionControl.findOne`), the
department/level access rule (`AllowedGroup.findOne` with
`status: 'allowed'`), and schedule membership
(`ScheduledStudent.findOne({matric})`).  The credential lookup between the
first and second gate is out of scope; the gate below is the eligibility
decision for a known student. -/

/-- `status` of an `AllowedGroup` document (lines 105-109). -/
inductive GroupStatus where
  | allowed : GroupStatus
  | blocked : GroupStatus
deriving DecidableEq, Repr

/-- An `AllowedGroup` document: a (department, level) access rule. -/
structure GroupRule where
  department : String
  level : String
  status : GroupStatus
deriving DecidableEq, Repr

/-- The state read by the gate: the singleton `SessionControl` document's
`sessionActive` flag (`none` when no document exists), the `AllowedGroup`
rules, and the scheduled students' matrics. -/
structure GateState where
  session : Option Bool
  groups : List GroupRule
  scheduled : List String
deriving DecidableEq, Repr

/-- The gate's decision, one distinct denial reason per predicate. -/
inductive Eligibility where
  | allowed : Eligibility
  | sessionInactive : Eligibility
  | groupBlocked : Eligibility
  | notScheduled : Eligibility
deriving DecidableEq, Repr

/-- `!session || !session.sessionActive` (line 359), negated: the exam
session is on. -/
def sessionOn (gs : GateState) : Bool :=
  match gs.session with
  | some b => b
  | none => false

/-- `AllowedGroup.findOne({ department, level, status: 'allowed' })`
(lines 370-374) as an existence test. -/
def groupAllowedCheck (gs : GateState) (department level : String) : Bool :=
  gs.groups.any (fun g =>
    g.department == department && g.level == level && g.status == GroupStatus.allowed)

/-- First `AllowedGroup` rule for the (department, level) pair, if any. -/
def findRule (gs : GateState) (department level : String) : Option GroupRule :=
  gs.groups.find? (fun g => g.department == department && g.level == level)

/-- `ScheduledStudent.findOne({ matric })` (line 381) as an existence
test. -/
def isScheduled (gs : GateState) (matric : String) : Bool :=
  gs.scheduled.any (fun s => s == matric)

/-- The eligibility gate of the login route (lines 357-390): session flag
first, then the (department, level) access rule, then schedule
membership; the first failing predicate's denial reason is returned. -/
def checkEligibility (gs : GateState) (department level matric : String) : Eligibility :=
  if !sessionOn gs then Eligibility.sessionInactive
  else if !groupAllowedCheck gs department level then Eligibility.groupBlocked
  else if !isScheduled gs matric then Eligibility.notScheduled
  else Eligibility.allowed

/-! ### Submission admission queue

`submissionQueue` (line 15) is a JS array used FIFO (`push` on line 704,
`shift` on line 646); `activeSubmissions` (line 16) counts in-flight
submissions against `MAX_CONCURRENT_SUBMISSIONS = 25` (line 22).
`processNextSubmission` (lines 643-700) admits the head only when the
counter is below the cap, increments it, and in its `finally` block
decrements it and re-attempts a drain — on success and on failure alike.
The route handler (lines 703-706) enqueues and attempts one drain.

The model is a labelled transition system over `QState`.  Items are
identified by naturals.  `arrived`, `admitted` and `done` are history
variables: every item ever enqueued in arrival order, every item admitted
into processing in admission order, and every completed item in
completion order.  `queue` and `processing` are the live queue and the
in-flight set (`activeSubmissions = processing.length`). -/

/-- `MAX_CONCURRENT_SUBMISSIONS` (line 22). -/
def MAX_CONCURRENT_SUBMISSIONS : ℕ := 25

/-- State of the submission queue machinery. -/
structure QState where
  arrived : List ℕ
  queue : List ℕ
  processing : List ℕ
  admitted : List ℕ
  done : List ℕ
deriving DecidableEq, Repr

/-- One call to `processNextSubmission` up to its first `await`
(lines 644-647): a no-op when the queue is empty or the cap is reached,
otherwise `shift` the head and increment `activeSubmissions`. -/
def drainStep (cap : ℕ) (s : QState) : QState :=
  if s.processing.length < cap then
    match s.queue with
    | [] => s
    | h :: t =>
        { s with queue := t, processing := s.processing ++ [h], admitted := s.admitted ++ [h] }
  else s

/-- The submit route handler's `submissionQueue.push` (line 704). -/
def enqueueReq (i : ℕ) (s : QState) : QState :=
  { s with arrived := s.arrived ++ [i], queue := s.queue ++ [i] }

/-- The `finally` bookkeeping (lines 696-699) for item `i`:
`activeSubmissions--` and record completion. -/
def finishReq (i : ℕ) (s : QState) : QState :=
  { s with processing := s.processing.erase i, done := s.done ++ [i] }

/-- Atomic events of the queue.  `enqueue` is the route handler: push then
one drain attempt (line 705).  `complete` is an in-flight item finishing
with outcome `ok` (success or failure — the `finally` block runs either
way and the resulting state does not depend on `ok`), then one drain
attempt (line 698). -/
inductive QStep (cap : ℕ) : QState → QState → Prop
  | enqueue (i : ℕ) (s : QState) : QStep cap s (drainStep cap (enqueueReq i s))
  | complete (i : ℕ) (ok : Bool) (s : QState) (hmem : i ∈ s.processing) :
      QStep cap s (drainStep cap (finishReq i s))

/-- The empty initial state (server start: empty array, zero counter). -/
def QState.init : QState := ⟨[], [], [], [], []⟩

/-- Multi-step reachability between queue states. -/
def Reaches (cap : ℕ) : QState → QState → Prop :=
  Relation.ReflTransGen (QStep cap)

/-- States reachable from server start. -/
def Reachable (cap : ℕ) (s : QState) : Prop :=
  Reaches cap QState.init s

/-- Inductive invariant of the queue: the cap bounds the in-flight count;
arrival order is admission order followed by the live queue; the admitted
items are exactly the done and in-flight ones; and the queue is only ever
non-empty while the cap is saturated. -/
def QInv (cap : ℕ) (s : QState) : Prop :=
  s.processing.length ≤ cap ∧
  s.arrived = s.admitted ++ s.queue ∧
  s.admitted.Perm (s.done ++ s.processing) ∧
  (s.queue ≠ [] → cap ≤ s.processing.length)

/-- A drain attempt changes neither the arrival history nor the sum of
queued and in-flight items (it only moves one item from the queue into
processing, or does nothing). -/
lemma drainStep_arrived (cap : ℕ) (s : QState) : (drainStep cap s).arrived = s.arrived := by
  unfold drainStep
  split
  · cases s.queue <;> rfl
  · rfl

/-- A drain attempt preserves the total number of pending items. -/
lemma drainStep_measure (cap : ℕ) (s : QState) :
    (drainStep cap s).queue.length + (drainStep cap s).processing.length =
      s.queue.length + s.processing.length := by
  unfold drainStep
  split
  · rcases hq : s.queue with _ | ⟨h, t⟩
    · simp [hq]
    · simp [hq]
      omega
  · rfl

/-- The queue invariant holds at server start. -/
lemma qinv_init (cap : ℕ) : QInv cap QState.init := by
  refine ⟨?_, ?_, ?_, ?_⟩ <;> simp [QState.init, QInv]

/-- After removing one in-flight item, the admitted items are still the
done and in-flight ones with the removed item recorded as done. -/
lemma admitted_perm_after_finish {s : QState} {i : ℕ}
    (h3 : s.admitted.Perm (s.done ++ s.processing)) (hmem : i ∈ s.processing) :
    s.admitted.Perm ((s.done ++ [i]) ++ s.processing.erase i) := by
  have hstep : s.processing.Perm (i :: s.processing.erase i) := List.perm_cons_erase hmem
  have h' : s.admitted.Perm (s.done ++ (i :: s.processing.erase i)) :=
    h3.trans (hstep.append_left s.done)
  simpa [List.append_assoc] using h'

/-- The queue invariant is preserved by every queue event. -/
lemma qinv_step {cap : ℕ} {s s' : QState} (hinv : QInv cap s) (hstep : QStep cap s s') :
    QInv cap s' := by
  obtain ⟨h1, h2, h3, h4⟩ := hinv
  cases hstep with
  | enqueue i s =>
      by_cases hlt : s.processing.length < cap
      · have hq : s.queue = [] := by
          by_contra hne
          have := h4 hne
          omega
        refine ⟨?_, ?_, ?_, ?_⟩
        · simp [drainStep, enqueueReq, hq, hlt]
          omega
        · simp [drainStep, enqueueReq, hq, hlt, h2]
        · simp only [drainStep, enqueueReq, hq, hlt]
          simp only [List.nil_append, if_true]
          simpa [List.append_assoc] using h3.append_right [i]
        · simp [drainStep, enqueueReq, hq, hlt]
      · refine ⟨?_, ?_, ?_, ?_⟩ <;>
          simp [drainStep, enqueueReq, hlt, h2, h3] <;> omega
  | complete i ok s hmem =>
      have hpos : 0 < s.processing.length := List.length_pos_of_mem hmem
      have herase : (s.processing.erase i).length = s.processing.length - 1 :=
        List.length_erase_of_mem hmem
      have hlt : (s.processing.erase i).length < cap := by omega
      cases hq : s.queue with
      | nil =>
          refine ⟨?_, ?_, ?_, ?_⟩
          · simp [drainStep, finishReq, hq, hlt]
            omega
          · simp only [drainStep, finishReq, hq, hlt]
            simpa [hq] using h2
          · simp only [drainStep, finishReq, hq, hlt, if_true]
            exact admitted_perm_after_finish h3 hmem
          · simp [drainStep, finishReq, hq, hlt]
      | cons qh qt =>
          have hcap : cap ≤ s.processing.length := h4 (by simp [hq])
          refine ⟨?_, ?_, ?_, ?_⟩
          · simp [drainStep, finishReq, hq, hlt]
            omega
          · simp only [drainStep, finishReq, hq, hlt, if_true]
            simp only [h2, hq]
            simp
          · simp only [drainStep, finishReq, hq, hlt, if_true]
            simpa [List.append_assoc] using
              (admitted_perm_after_finish h3 hmem).append_right [qh]
          · simp [drainStep, finishReq, hq, hlt]
            omega

/-- The queue invariant holds in every reachable state. -/
lemma qinv_reachable {cap : ℕ} {s : QState} (h : Reachable cap s) : QInv cap s := by
  induction h with
  | refl => exact qinv_init cap
  | tail _ hstep ih => exact qinv_step ih hstep

/-- Self-draining: with a positive cap, from any state satisfying the
invariant there is a run of completion events (each one taken with
outcome `ok = false`, i.e. a failing submission) after which the queue
and the in-flight set are empty and nothing new has arrived.  Measure
induction on the number of pending items. -/
lemma queue_drains (cap : ℕ) (hcap : 0 < cap) :
    ∀ (n : ℕ) (s : QState), QInv cap s → s.queue.length + s.processing.length = n →
      ∃ s', Reaches cap s s' ∧ s'.queue = [] ∧ s'.processing = [] ∧
        s'.arrived = s.arrived ∧ QInv cap s' := by
  intro n
  induction n with
  | zero =>
      intro s hinv hlen
      have hq : s.queue = [] := by
        have : s.queue.length = 0 := by omega
        exact List.length_eq_zero.mp this
      have hp : s.processing = [] := by
        have : s.processing.length = 0 := by omega
        exact List.length_eq_zero.mp this
      exact ⟨s, Relation.ReflTransGen.refl, hq, hp, rfl, hinv⟩
  | succ n ih =>
      intro s hinv hlen
      rcases hp : s.processing with _ | ⟨i, rest⟩
      · exfalso
        have hqne : s.queue ≠ [] := by
          intro h0
          rw [h0, hp] at hlen
          simp at hlen
        have := hinv.2.2.2 hqne
        rw [hp] at this
        simp at this
        omega
      · have hmem : i ∈ s.processing := by rw [hp]; exact List.mem_cons_self i rest
        have hstep : QStep cap s (drainStep cap (finishReq i s)) :=
          QStep.complete i false s hmem
        have hinv' : QInv cap (drainStep cap (finishReq i s)) :=
          qinv_step hinv hstep
        have hmeasure : (drainStep cap (finishReq i s)).queue.length +
            (drainStep cap (finishReq i s)).processing.length = n := by
          rw [drainStep_measure]
          have herase : (s.processing.erase i).length = s.processing.length - 1 :=
            List.length_erase_of_mem hmem
          have hpos : 0 < s.processing.length := List.length_pos_of_mem hmem
          simp only [finishReq]
          omega
        obtain ⟨s', hr, hq', hp', harr', hinv''⟩ := ih _ hinv' hmeasure
        refine ⟨s', Relation.ReflTransGen.head hstep hr, hq', hp', ?_, hinv''⟩
        rw [harr', drainStep_arrived]
        simp [finishReq]

/-! ### Branch lemmas for one processed submission -/

/-- Failing the structural validation (line 652) responds 400 and leaves
the store untouched. -/
lemma processWith_validation_fail (p : Payload) (ca : ℕ) (st : Store)
    (h : (p.matric == "" || p.courseCode == "" || !jsTypeofIsObject p.answers) = true) :
    processSubmissionWith p ca st =
      (st, ⟨400, [("message", "Missing or invalid submission data.")]⟩) := by
  unfold processSubmissionWith
  rw [if_pos h]

/-- An existing Submission document for the pair (line 657) responds 409
and leaves the store untouched. -/
lemma processWith_conflict (p : Payload) (ca : ℕ) (st : Store)
    (hv : (p.matric == "" || p.courseCode == "" || !jsTypeofIsObject p.answers) = false)
    (hs : hasSubmission st p.matric p.courseCode = true) :
    processSubmissionWith p ca st =
      (st, ⟨409, [("message", "Submission already exists.")]⟩) := by
  unfold processSubmissionWith
  rw [if_neg (by simp [hv]), if_pos hs]

/-- A `null` answer map passes the `typeof` validation but makes
`Submission.create` throw on the required `answers` path: 500, nothing
persisted. -/
lemma processWith_null (p : Payload) (ca : ℕ) (st : Store)
    (hm : p.matric ≠ "") (hc : p.courseCode ≠ "") (hnull : p.answers = AnswersVal.null)
    (hs : hasSubmission st p.matric p.courseCode = false) :
    processSubmissionWith p ca st = (st, ⟨500, [("message", "Submission failed")]⟩) := by
  unfold processSubmissionWith
  rw [if_neg (by simp [hm, hc, hnull, jsTypeofIsObject]), if_neg (by simp [hs])]
  rw [hnull]

/-- The fully successful path for a fresh pair with an object answer map:
the audit Submission is appended, and the Result write happens exactly
when no Result yet exists for the pair. -/
lemma processWith_success (p : Payload) (ca : ℕ) (st : Store) (m : List (String × String))
    (hm : p.matric ≠ "") (hc : p.courseCode ≠ "")
    (hobj : p.answers = AnswersVal.obj m) (hname : p.name ≠ "") (hdept : p.department ≠ "")
    (hs : hasSubmission st p.matric p.courseCode = false) :
    processSubmissionWith p ca st =
      (⟨st.questions,
        st.submissions ++ [⟨p.matric, p.name, p.department, p.courseCode, p.answers⟩],
        if hasResult st p.matric p.courseCode then st.results
        else st.results ++
          [⟨p.matric, p.courseCode, rawScore (courseQuestions st p.courseCode) m,
            (courseQuestions st p.courseCode).length, ca,
            rawScore (courseQuestions st p.courseCode) m + ca⟩]⟩,
       ⟨200, [("message", "Exam submitted successfully")]⟩) := by
  obtain ⟨pm, pn, pd, pc, pa⟩ := p
  simp only at hobj
  subst hobj
  unfold processSubmissionWith
  rw [if_neg (by simp_all [jsTypeofIsObject]), if_neg (by simp [hs])]
  dsimp only
  rw [if_neg (by simp_all : ¬(pn == "" || pd == "") = true)]
  simp only [hasResult, findResult]
  split <;> simp [*]

/-- A missing required `name` or `department` makes `Submission.create`
throw (Mongoose `required` validation): 500, nothing persisted. -/
lemma processWith_required_fail (p : Payload) (ca : ℕ) (st : Store) (m : List (String × String))
    (hm : p.matric ≠ "") (hc : p.courseCode ≠ "")
    (hobj : p.answers = AnswersVal.obj m)
    (hnd : (p.name == "" || p.department == "") = true)
    (hs : hasSubmission st p.matric p.courseCode = false) :
    processSubmissionWith p ca st = (st, ⟨500, [("message", "Submission failed")]⟩) := by
  obtain ⟨pm, pn, pd, pc, pa⟩ := p
  simp only at hobj
  subst hobj
  unfold processSubmissionWith
  rw [if_neg (by simp_all [jsTypeofIsObject]), if_neg (by simp [hs])]
  dsimp only
  rw [if_pos hnd]

/-- Exhaustive shape of the store after one processed submission: either
it is untouched, or (fresh valid object-map submission) the audit record
is appended and the Result write is guarded by the pre-write idempotency
re-check. -/
lemma processWith_cases (p : Payload) (ca : ℕ) (st : Store) :
    (processSubmissionWith p ca st).1 = st ∨
    (∃ m : List (String × String), p.answers = AnswersVal.obj m ∧
      hasSubmission st p.matric p.courseCode = false ∧
      (processSubmissionWith p ca st).1 =
        ⟨st.questions,
         st.submissions ++ [⟨p.matric, p.name, p.department, p.courseCode, p.answers⟩],
         if hasResult st p.matric p.courseCode then st.results
         else st.results ++
           [⟨p.matric, p.courseCode, rawScore (courseQuestions st p.courseCode) m,
             (courseQuestions st p.courseCode).length, ca,
             rawScore (courseQuestions st p.courseCode) m + ca⟩]⟩) := by
  by_cases hv : (p.matric == "" || p.courseCode == "" || !jsTypeofIsObject p.answers) = true
  · left
    rw [processWith_validation_fail p ca st hv]
  · have hv' : (p.matric == "" || p.courseCode == "" || !jsTypeofIsObject p.answers) = false := by
      simpa using hv
    have hm : p.matric ≠ "" := by
      intro h0
      simp [h0] at hv'
    have hc : p.courseCode ≠ "" := by
      intro h0
      simp [h0] at hv'
    by_cases hs : hasSubmission st p.matric p.courseCode = true
    · left
      rw [processWith_conflict p ca st hv' hs]
    · have hs' : hasSubmission st p.matric p.courseCode = false := by simpa using hs
      rcases hpa : p.answers with _ | _ | s | m
      · exfalso
        simp [hpa, jsTypeofIsObject] at hv'
      · left
        rw [processWith_null p ca st hm hc hpa hs']
      · exfalso
        simp [hpa, jsTypeofIsObject] at hv'
      · by_cases hnd : (p.name == "" || p.department == "") = true
        · left
          rw [processWith_required_fail p ca st m hm hc hpa hnd hs']
        · have hname : p.name ≠ "" := by
            intro h0
            simp [h0] at hnd
          have hdept : p.department ≠ "" := by
            intro h0
            simp [h0] at hnd
          right
          refine ⟨m, rfl, hs', ?_⟩
          rw [processWith_success p ca st m hm hc hpa hname hdept hs']
          simp [hpa]

/-- The computed raw score agrees with the amended spec-side count. -/
lemma rawScore_eq_specRawScoreNonempty (qs : List Question) (m : List (String × String)) :
    rawScore qs m = specRawScoreNonempty qs m := by
  unfold rawScore specRawScoreNonempty
  congr 1
  apply List.filter_congr
  intro q _
  unfold answerMatches
  rcases h : lookupAnswer m q.id with _ | a <;> simp [h]

/-- A Result already found for a pair is still found, unchanged, after any
append to the results list (`findOne` returns the earlier document). -/
lemma findResult_append (st : Store) (l : List ResultRec) (m c : String) (res : ResultRec)
    (h : findResult st m c = some res) :
    (st.results ++ l).find?
      (fun rr => rr.studentMatric == m && rr.courseCode == c) = some res := by
  unfold findResult at h
  rw [List.find?_append, h]
  rfl

/-! ### Claim theorems -/

/-- **C2, counterexample.**  The claim says the duplicate check of step (b)
queries the Result Store and that an existing Result yields a conflict
with nothing persisted.  In the code the check on line 657 queries the
`Submission` collection: in a state holding a Result for
("M1", "CSC101") but no Submission record, a valid submission for the
same pair is processed with a 200 success — not a 409 conflict — and a
new Submission audit record is persisted. -/
theorem duplicate_check_ignores_result_store_cx :
    hasResult ⟨[], [], [⟨"M1", "CSC101", 2, 3, 20, 22⟩]⟩ "M1" "CSC101" = true ∧
    (processSubmission ⟨"M1", "Ada", "CS", "CSC101", AnswersVal.obj [("q1", "a")]⟩ 0
        ⟨[], [], [⟨"M1", "CSC101", 2, 3, 20, 22⟩]⟩).2.status = 200 ∧
    (processSubmission ⟨"M1", "Ada", "CS", "CSC101", AnswersVal.obj [("q1", "a")]⟩ 0
        ⟨[], [], [⟨"M1", "CSC101", 2, 3, 20, 22⟩]⟩).1.submissions =
      [⟨"M1", "Ada", "CS", "CSC101", AnswersVal.obj [("q1", "a")]⟩] := by
  refine ⟨rfl, ?_, ?_⟩ <;> decide

/-- **C2, amended.**  The duplicate check of step (b) queries the
Submission audit collection for the (student, course) pair: when a
Submission record exists the caller receives a 409 conflict and nothing
is persisted; an existing Result alone does not trigger the conflict —
the submission is processed with a 200, a new Submission audit record is
persisted, and only the pre-write idempotency re-check keeps the Result
Store unchanged. -/
theorem duplicate_check_queries_submission_store (p : Payload) (r : ℚ) (st : Store)
    (m : List (String × String)) (hm : p.matric ≠ "") (hc : p.courseCode ≠ "")
    (hobj : p.answers = AnswersVal.obj m) (hname : p.name ≠ "") (hdept : p.department ≠ "") :
    (hasSubmission st p.matric p.courseCode = true →
      processSubmission p r st =
        (st, ⟨409, [("message", "Submission already exists.")]⟩)) ∧
    (hasSubmission st p.matric p.courseCode = false →
      hasResult st p.matric p.courseCode = true →
      (processSubmission p r st).2.status = 200 ∧
      (processSubmission p r st).1.results = st.results ∧
      (processSubmission p r st).1.submissions =
        st.submissions ++ [⟨p.matric, p.name, p.department, p.courseCode, p.answers⟩]) := by
  constructor
  · intro hs
    unfold processSubmission
    rw [processWith_conflict p (caScore r) st (by simp [hm, hc, hobj, jsTypeofIsObject]) hs]
  · intro hs hr
    unfold processSubmission
    rw [processWith_success p (caScore r) st m hm hc hobj hname hdept hs]
    refine ⟨rfl, ?_, rfl⟩
    dsimp only
    rw [if_pos hr]

/-- **C2, amended, witness.** -/
theorem duplicate_check_queries_submission_store_witness :
    processSubmission (⟨"M1", "Ada", "CS", "CSC101", AnswersVal.obj []⟩ : Payload) 0
        (⟨[], [⟨"M1", "Ada", "CS", "CSC101", AnswersVal.obj []⟩], []⟩ : Store) =
      (⟨[], [⟨"M1", "Ada", "CS", "CSC101", AnswersVal.obj []⟩], []⟩,
       ⟨409, [("message", "Submission already exists.")]⟩) :=
  (duplicate_check_queries_submission_store _ 0 _ [] (by decide) (by decide) rfl
    (by decide) (by decide)).1 (by decide)

/-- **C3, counterexample.**  The claim says the raw score counts exactly
the questions whose answer-map entry equals the stored correct-answer
label.  The truthiness guard on line 669 additionally rejects a falsy
(empty-string) answer: for a question whose stored correct answer is the
empty string and an answer map supplying exactly that empty string, the
code scores 0 while the claimed count is 1. -/
theorem raw_score_truthiness_cx :
    rawScore [⟨"q1", "CSC101", "t", ""⟩] [("q1", "")] = 0 ∧
    specRawScore [⟨"q1", "CSC101", "t", ""⟩] [("q1", "")] = 1 := by
  decide

/-- **C3, amended.**  For a fresh, valid submission with answer map `m`,
the persisted raw score is the number of course questions whose entry in
`m` is present, non-empty and exactly (case-sensitively) equal to the
stored correct-answer label; the persisted total is the number of
questions of the course.  Questions absent from `m` count as wrong, never
as an error; an answer map matching every (non-empty) correct label
scores N of N, and one missing every question scores 0. -/
theorem raw_score_amended (p : Payload) (r : ℚ) (st : Store) (m : List (String × String))
    (hm : p.matric ≠ "") (hc : p.courseCode ≠ "")
    (hobj : p.answers = AnswersVal.obj m) (hname : p.name ≠ "") (hdept : p.department ≠ "")
    (hs : hasSubmission st p.matric p.courseCode = false)
    (hr : hasResult st p.matric p.courseCode = false) :
    (processSubmission p r st).1.results = st.results ++
      [⟨p.matric, p.courseCode, specRawScoreNonempty (courseQuestions st p.courseCode) m,
        (courseQuestions st p.courseCode).length, caScore r,
        specRawScoreNonempty (courseQuestions st p.courseCode) m + caScore r⟩] ∧
    ((∀ q ∈ courseQuestions st p.courseCode,
        q.correctAnswer ≠ "" ∧ lookupAnswer m q.id = some q.correctAnswer) →
      rawScore (courseQuestions st p.courseCode) m =
        (courseQuestions st p.courseCode).length) ∧
    ((∀ q ∈ courseQuestions st p.courseCode, lookupAnswer m q.id = none) →
      rawScore (courseQuestions st p.courseCode) m = 0) := by
  refine ⟨?_, ?_, ?_⟩
  · unfold processSubmission
    rw [processWith_success p (caScore r) st m hm hc hobj hname hdept hs]
    dsimp only
    rw [if_neg (by simp [hr]), rawScore_eq_specRawScoreNonempty]
  · intro hall
    unfold rawScore
    have : (courseQuestions st p.courseCode).filter (answerMatches m) =
        courseQuestions st p.courseCode := by
      rw [List.filter_eq_self]
      intro q hq
      obtain ⟨hne, hfind⟩ := hall q hq
      unfold answerMatches
      rw [hfind]
      simp [hne]
    rw [this]
  · intro hnone
    unfold rawScore
    have : (courseQuestions st p.courseCode).filter (answerMatches m) = [] := by
      rw [List.filter_eq_nil_iff]
      intro q hq
      unfold answerMatches
      rw [hnone q hq]
      simp
    rw [this]
    rfl

/-- **C3, amended, witness.**  The scenario of the spec: three questions
with answers a/b/c, student answers a/x/c, scores 2 of 3. -/
theorem raw_score_amended_witness :
    (processSubmission
        (⟨"M1", "Ada", "CS", "CSC101",
          AnswersVal.obj [("q1", "a"), ("q2", "x"), ("q3", "c")]⟩ : Payload) 0
        (⟨[⟨"q1", "CSC101", "t1", "a"⟩, ⟨"q2", "CSC101", "t2", "b"⟩,
           ⟨"q3", "CSC101", "t3", "c"⟩], [], []⟩ : Store)).1.results =
      [] ++
      [⟨"M1", "CSC101",
        specRawScoreNonempty
          (courseQuestions
            (⟨[⟨"q1", "CSC101", "t1", "a"⟩, ⟨"q2", "CSC101", "t2", "b"⟩,
               ⟨"q3", "CSC101", "t3", "c"⟩], [], []⟩ : Store) "CSC101")
          [("q1", "a"), ("q2", "x"), ("q3", "c")],
        (courseQuestions
          (⟨[⟨"q1", "CSC101", "t1", "a"⟩, ⟨"q2", "CSC101", "t2", "b"⟩,
             ⟨"q3", "CSC101", "t3", "c"⟩], [], []⟩ : Store) "CSC101").length,
        caScore 0,
        specRawScoreNonempty
          (courseQuestions
            (⟨[⟨"q1", "CSC101", "t1", "a"⟩, ⟨"q2", "CSC101", "t2", "b"⟩,
               ⟨"q3", "CSC101", "t3", "c"⟩], [], []⟩ : Store) "CSC101")
          [("q1", "a"), ("q2", "x"), ("q3", "c")] + caScore 0⟩] ∧
    specRawScoreNonempty
      (courseQuestions
        (⟨[⟨"q1", "CSC101", "t1", "a"⟩, ⟨"q2", "CSC101", "t2", "b"⟩,
           ⟨"q3", "CSC101", "t3", "c"⟩], [], []⟩ : Store) "CSC101")
      [("q1", "a"), ("q2", "x"), ("q3", "c")] = 2 :=
  ⟨(raw_score_amended _ 0 _ _ (by decide) (by decide) rfl (by decide) (by decide)
      (by decide) (by decide)).1, by decide⟩

/-- **C8, counterexample.**  The claim says the success outcome of
`submitExam` has the shape `{score, total}`.  Line 691 responds
`{ message: "Exam submitted successfully" }`: on a fully successful
submission the 200 response body carries no `score` and no `total`
field. -/
theorem success_response_message_only_cx :
    (processSubmission ⟨"M1", "Ada", "CS", "CSC101", AnswersVal.obj [("q1", "a")]⟩ 0
        ⟨[⟨"q1", "CSC101", "t", "a"⟩], [], []⟩).2.status = 200 ∧
    ((processSubmission ⟨"M1", "Ada", "CS", "CSC101", AnswersVal.obj [("q1", "a")]⟩ 0
        ⟨[⟨"q1", "CSC101", "t", "a"⟩], [], []⟩).2.body.find?
      (fun kv => kv.1 == "score")) = none ∧
    ((processSubmission ⟨"M1", "Ada", "CS", "CSC101", AnswersVal.obj [("q1", "a")]⟩ 0
        ⟨[⟨"q1", "CSC101", "t", "a"⟩], [], []⟩).2.body.find?
      (fun kv => kv.1 == "total")) = none := by
  refine ⟨?_, ?_, ?_⟩ <;> decide

/-- **C8, amended.**  A successfully processed submission responds
200 with the fixed body `{ message: "Exam submitted successfully" }` —
an outcome distinct from the 409 conflict and 400 validation responses;
the objective score and the question total are not returned to the
caller but persisted in the written Result record (fields `score` and
`total`). -/
theorem success_response_and_persisted_scores (p : Payload) (r : ℚ) (st : Store)
    (m : List (String × String)) (hm : p.matric ≠ "") (hc : p.courseCode ≠ "")
    (hobj : p.answers = AnswersVal.obj m) (hname : p.name ≠ "") (hdept : p.department ≠ "")
    (hs : hasSubmission st p.matric p.courseCode = false)
    (hr : hasResult st p.matric p.courseCode = false) :
    (processSubmission p r st).2 =
      ⟨200, [("message", "Exam submitted successfully")]⟩ ∧
    (200 : ℕ) ≠ 409 ∧ (200 : ℕ) ≠ 400 ∧
    (processSubmission p r st).1.results = st.results ++
      [⟨p.matric, p.courseCode, rawScore (courseQuestions st p.courseCode) m,
        (courseQuestions st p.courseCode).length, caScore r,
        rawScore (courseQuestions st p.courseCode) m + caScore r⟩] := by
  unfold processSubmission
  rw [processWith_success p (caScore r) st m hm hc hobj hname hdept hs]
  refine ⟨rfl, by decide, by decide, ?_⟩
  dsimp only
  rw [if_neg (by simp [hr])]

/-- **C8, amended, witness.** -/
theorem success_response_and_persisted_scores_witness :
    (processSubmission (⟨"M1", "Ada", "CS", "CSC101", AnswersVal.obj [("q1", "a")]⟩ : Payload) 0
        (⟨[⟨"q1", "CSC101", "t", "a"⟩], [], []⟩ : Store)).2 =
      ⟨200, [("message", "Exam submitted successfully")]⟩ :=
  (success_response_and_persisted_scores _ 0 _ [("q1", "a")] (by decide) (by decide) rfl
    (by decide) (by decide) (by decide) (by decide)).1

/-- **C9, counterexample.**  The claim says any payload whose answer map
is not a proper mapping is rejected with a client validation error.  A
`null` answer map is not a mapping, yet `typeof null === "object"` passes
the validation of line 652; the failure only surfaces when
`Submission.create` rejects the required `answers` field, and the catch
branch responds 500 — a server fault, not a client validation error
(nothing is persisted either way). -/
theorem null_answers_server_error_cx :
    (processSubmission ⟨"M1", "Ada", "CS", "CSC101", AnswersVal.null⟩ 0 ⟨[], [], []⟩) =
      (⟨[], [], []⟩, ⟨500, [("message", "Submission failed")]⟩) ∧
    (processSubmission ⟨"M1", "Ada", "CS", "CSC101", AnswersVal.null⟩ 0
        ⟨[], [], []⟩).2.status ≠ 400 := by
  refine ⟨?_, ?_⟩ <;> decide

/-- **C9, amended.**  A payload missing the student identity, missing the
course code, or whose `answers` value has a non-object JS type is
rejected with a 400 client error and nothing is persisted; a `null`
answer map alone passes the `typeof` validation and instead fails at the
audit-record write, responding 500 — still with nothing persisted. -/
theorem validation_rejects_before_persist (p : Payload) (r : ℚ) (st : Store) :
    ((p.matric = "" ∨ p.courseCode = "" ∨ jsTypeofIsObject p.answers = false) →
      processSubmission p r st =
        (st, ⟨400, [("message", "Missing or invalid submission data.")]⟩)) ∧
    (p.matric ≠ "" → p.courseCode ≠ "" → p.answers = AnswersVal.null →
      hasSubmission st p.matric p.courseCode = false →
      processSubmission p r st = (st, ⟨500, [("message", "Submission failed")]⟩)) := by
  constructor
  · intro hbad
    unfold processSubmission
    rw [processWith_validation_fail p (caScore r) st ?_]
    rcases hbad with h | h | h <;> simp [h]
  · intro hm hc hnull hs
    unfold processSubmission
    rw [processWith_null p (caScore r) st hm hc hnull hs]

/-- **C9, amended, witness.** -/
theorem validation_rejects_before_persist_witness :
    processSubmission (⟨"", "Ada", "CS", "CSC101", AnswersVal.obj []⟩ : Payload) 0
        (⟨[], [], []⟩ : Store) =
      (⟨[], [], []⟩, ⟨400, [("message", "Missing or invalid submission data.")]⟩) :=
  (validation_rejects_before_persist _ 0 _).1 (Or.inl rfl)

/-- **C10.**  A submission for a course code with no stored questions —
including a course that does not exist at all — still succeeds: the audit
Submission is written and a Result is persisted with score 0, total 0 and
totalScore equal to the CA score alone; the submission path has no
course-not-found outcome. -/
theorem missing_course_scores_zero (p : Payload) (r : ℚ) (st : Store)
    (m : List (String × String)) (hm : p.matric ≠ "") (hc : p.courseCode ≠ "")
    (hobj : p.answers = AnswersVal.obj m) (hname : p.name ≠ "") (hdept : p.department ≠ "")
    (hq : courseQuestions st p.courseCode = [])
    (hs : hasSubmission st p.matric p.courseCode = false)
    (hr : hasResult st p.matric p.courseCode = false) :
    (processSubmission p r st).2.status = 200 ∧
    (processSubmission p r st).1.submissions = st.submissions ++
      [⟨p.matric, p.name, p.department, p.courseCode, p.answers⟩] ∧
    (processSubmission p r st).1.results = st.results ++
      [⟨p.matric, p.courseCode, 0, 0, caScore r, caScore r⟩] := by
  unfold processSubmission
  rw [processWith_success p (caScore r) st m hm hc hobj hname hdept hs]
  refine ⟨rfl, rfl, ?_⟩
  dsimp only
  rw [if_neg (by simp [hr])]
  simp [hq, rawScore]

/-- **C10, witness.**  The store holds no questions at all, so course
"NOPE" does not exist. -/
theorem missing_course_scores_zero_witness :
    (processSubmission (⟨"M1", "Ada", "CS", "NOPE", AnswersVal.obj [("q1", "a")]⟩ : Payload) 0
        (⟨[], [], []⟩ : Store)).2.status = 200 ∧
    (processSubmission (⟨"M1", "Ada", "CS", "NOPE", AnswersVal.obj [("q1", "a")]⟩ : Payload) 0
        (⟨[], [], []⟩ : Store)).1.submissions = [] ++
      [⟨"M1", "Ada", "CS", "NOPE", AnswersVal.obj [("q1", "a")]⟩] ∧
    (processSubmission (⟨"M1", "Ada", "CS", "NOPE", AnswersVal.obj [("q1", "a")]⟩ : Payload) 0
        (⟨[], [], []⟩ : Store)).1.results = [] ++
      [⟨"M1", "NOPE", 0, 0, caScore 0, caScore 0⟩] :=
  missing_course_scores_zero _ 0 _ [("q1", "a")] (by decide) (by decide) rfl
    (by decide) (by decide) (by decide) (by decide) (by decide)

/-- **C1.**  Per (studentMatric, courseCode) pair at most one Result ever
exists and the submission path never updates or overwrites one: (i) the
at-most-one-Result-per-pair invariant is preserved by processing any
submission; (ii) if a Result exists for a pair, the results recorded for
that pair are exactly the same after processing — no write when a Result
already exists (the idempotency re-check guards the write); (iii) a
resubmission for an already-submitted pair yields a 409 conflict and
leaves the whole store untouched. -/
theorem result_pair_unique_and_never_overwritten (p : Payload) (r : ℚ) (st : Store)
    (huniq : st.results.Pairwise
      (fun a b => ¬(a.studentMatric = b.studentMatric ∧ a.courseCode = b.courseCode))) :
    ((processSubmission p r st).1.results.Pairwise
      (fun a b => ¬(a.studentMatric = b.studentMatric ∧ a.courseCode = b.courseCode))) ∧
    (∀ mm cc, hasResult st mm cc = true →
      (processSubmission p r st).1.results.filter
          (fun rr => rr.studentMatric == mm && rr.courseCode == cc) =
        st.results.filter (fun rr => rr.studentMatric == mm && rr.courseCode == cc)) ∧
    (p.matric ≠ "" → p.courseCode ≠ "" → jsTypeofIsObject p.answers = true →
      hasSubmission st p.matric p.courseCode = true →
      processSubmission p r st =
        (st, ⟨409, [("message", "Submission already exists.")]⟩)) := by
  have hnores_mem : hasResult st p.matric p.courseCode = false →
      ∀ rr ∈ st.results,
        ¬(rr.studentMatric = p.matric ∧ rr.courseCode = p.courseCode) := by
    intro hno rr hmem hpair
    unfold hasResult findResult at hno
    rw [Bool.eq_false_iff, Ne, Option.isSome_iff_exists] at hno
    rcases hfind : List.find? (fun rr => rr.studentMatric == p.matric &&
        rr.courseCode == p.courseCode) st.results with _ | found
    · rw [List.find?_eq_none] at hfind
      have := hfind rr hmem
      simp [hpair.1, hpair.2] at this
    · exact hno ⟨found, hfind⟩
  refine ⟨?_, ?_, ?_⟩
  · unfold processSubmission
    rcases processWith_cases p (caScore r) st with hsame | ⟨m, hobj, hs, hshape⟩
    · rw [hsame]
      exact huniq
    · rw [hshape]
      dsimp only
      by_cases hres : hasResult st p.matric p.courseCode = true
      · rw [if_pos hres]
        exact huniq
      · rw [if_neg hres]
        rw [List.pairwise_append]
        refine ⟨huniq, by simp, ?_⟩
        intro a ha b hb
        simp only [List.mem_singleton] at hb
        subst hb
        intro hpair
        exact hnores_mem (by simpa using hres) a ha (by simpa using hpair)
  · intro mm cc hres
    unfold processSubmission
    rcases processWith_cases p (caScore r) st with hsame | ⟨m, hobj, hs, hshape⟩
    · rw [hsame]
    · rw [hshape]
      dsimp only
      by_cases hres2 : hasResult st p.matric p.courseCode = true
      · rw [if_pos hres2]
      · rw [if_neg hres2]
        rw [List.filter_append]
        have hne : ¬(p.matric = mm ∧ p.courseCode = cc) := by
          rintro ⟨h1, h2⟩
          rw [h1, h2] at hres2
          exact hres2 hres
        have : (List.filter (fun rr => rr.studentMatric == mm && rr.courseCode == cc)
            [(⟨p.matric, p.courseCode, rawScore (courseQuestions st p.courseCode) m,
              (courseQuestions st p.courseCode).length, caScore r,
              rawScore (courseQuestions st p.courseCode) m + caScore r⟩ : ResultRec)]) = [] := by
          simp only [List.filter_eq_nil_iff]
          intro rr hmem
          simp only [List.mem_singleton] at hmem
          subst hmem
          simp only [Bool.and_eq_true, beq_iff_eq]
          rintro ⟨h1, h2⟩
          exact hne ⟨h1, h2⟩
        rw [this, List.append_nil]
  · intro hm hc hobj hsub
    unfold processSubmission
    rw [processWith_conflict p (caScore r) st (by simp [hm, hc, hobj]) hsub]

/-- **C1, witness.**  A resubmission for the already-submitted pair
("M1", "CSC101") conflicts. -/
theorem result_pair_unique_and_never_overwritten_witness :
    processSubmission (⟨"M1", "Ada", "CS", "CSC101", AnswersVal.obj [("q1", "a")]⟩ : Payload) 0
        (⟨[⟨"q1", "CSC101", "t", "a"⟩],
          [⟨"M1", "Ada", "CS", "CSC101", AnswersVal.obj [("q1", "a")]⟩],
          [⟨"M1", "CSC101", 1, 1, 20, 21⟩]⟩ : Store) =
      (⟨[⟨"q1", "CSC101", "t", "a"⟩],
        [⟨"M1", "Ada", "CS", "CSC101", AnswersVal.obj [("q1", "a")]⟩],
        [⟨"M1", "CSC101", 1, 1, 20, 21⟩]⟩,
       ⟨409, [("message", "Submission already exists.")]⟩) :=
  (result_pair_unique_and_never_overwritten _ 0 _ (by decide)).2.2
    (by decide) (by decide) (by decide) (by decide)

/-- **C4.**  The CA score generated for a newly scored submission is an
integer in [20, 35]; every Result record after processing is either an
untouched pre-existing one or the newly created one, whose `caScore`
field is the generated draw and whose `totalScore` is its `score` plus
its `caScore`; and a Result already persisted for a pair is found
unchanged after processing (reading twice yields the same CA score). -/
theorem ca_score_range_and_immutable (p : Payload) (r : ℚ) (st : Store)
    (h0 : 0 ≤ r) (h1 : r < 1) :
    20 ≤ caScore r ∧ caScore r ≤ 35 ∧
    (∀ res ∈ (processSubmission p r st).1.results,
      res ∈ st.results ∨
        (res.caScore = caScore r ∧ res.totalScore = res.score + res.caScore)) ∧
    (∀ mm cc res, findResult st mm cc = some res →
      findResult (processSubmission p r st).1 mm cc = some res) := by
  have hfloor : (0 : ℤ) ≤ ⌊r * (35 - 20 + 1 : ℚ)⌋ := by
    apply Int.floor_nonneg.mpr
    positivity
  have hupper : ⌊r * (35 - 20 + 1 : ℚ)⌋ < 16 := by
    apply Int.floor_lt.mpr
    push_cast
    nlinarith
  refine ⟨?_, ?_, ?_, ?_⟩
  · unfold caScore
    omega
  · unfold caScore
    omega
  · intro res hres
    unfold processSubmission at hres
    rcases processWith_cases p (caScore r) st with hsame | ⟨m, hobj, hs, hshape⟩
    · rw [hsame] at hres
      exact Or.inl hres
    · rw [hshape] at hres
      dsimp only at hres
      by_cases hres2 : hasResult st p.matric p.courseCode = true
      · rw [if_pos hres2] at hres
        exact Or.inl hres
      · rw [if_neg hres2] at hres
        rcases List.mem_append.mp hres with hold | hnew
        · exact Or.inl hold
        · simp only [List.mem_singleton] at hnew
          subst hnew
          exact Or.inr ⟨rfl, rfl⟩
  · intro mm cc res hfound
    unfold processSubmission
    rcases processWith_cases p (caScore r) st with hsame | ⟨m, hobj, hs, hshape⟩
    · rw [hsame]
      exact hfound
    · rw [hshape]
      unfold findResult
      dsimp only
      by_cases hres2 : hasResult st p.matric p.courseCode = true
      · rw [if_pos hres2]
        exact hfound
      · rw [if_neg hres2]
        exact findResult_append st _ mm cc res hfound

/-- **C4, witness.** -/
theorem ca_score_range_and_immutable_witness :
    (0 : ℚ) ≤ (1 : ℚ) / 2 ∧ (1 : ℚ) / 2 < 1 ∧
    (20 ≤ caScore ((1 : ℚ) / 2) ∧ caScore ((1 : ℚ) / 2) ≤ 35 ∧
      (∀ res ∈ (processSubmission (⟨"M1", "Ada", "CS", "CSC101", AnswersVal.obj []⟩ : Payload)
          ((1 : ℚ) / 2) (⟨[], [], [⟨"M2", "CSC101", 1, 1, 20, 21⟩]⟩ : Store)).1.results,
        res ∈ [(⟨"M2", "CSC101", 1, 1, 20, 21⟩ : ResultRec)] ∨
          (res.caScore = caScore ((1 : ℚ) / 2) ∧ res.totalScore = res.score + res.caScore)) ∧
      (∀ mm cc res,
        findResult (⟨[], [], [⟨"M2", "CSC101", 1, 1, 20, 21⟩]⟩ : Store) mm cc = some res →
        findResult (processSubmission (⟨"M1", "Ada", "CS", "CSC101", AnswersVal.obj []⟩ : Payload)
            ((1 : ℚ) / 2) (⟨[], [], [⟨"M2", "CSC101", 1, 1, 20, 21⟩]⟩ : Store)).1 mm cc =
          some res)) :=
  ⟨by norm_num, by norm_num,
    ca_score_range_and_immutable _ ((1 : ℚ) / 2) _ (by norm_num) (by norm_num)⟩

/-- With at most one access rule per (department, level) pair, the code
check `AllowedGroup.findOne({department, level, status: 'allowed'})`
succeeds exactly when the rule for the pair exists and has status
allowed. -/
lemma groupAllowedCheck_iff (gs : GateState) (department level : String)
    (huniq : gs.groups.Pairwise
      (fun a b => ¬(a.department = b.department ∧ a.level = b.level))) :
    groupAllowedCheck gs department level = true ↔
      ∃ g, findRule gs department level = some g ∧ g.status = GroupStatus.allowed := by
  have hsym : Symmetric
      (fun a b : GroupRule => ¬(a.department = b.department ∧ a.level = b.level)) := by
    rintro a b hab ⟨h1, h2⟩
    exact hab ⟨h1.symm, h2.symm⟩
  constructor
  · intro h
    rw [groupAllowedCheck, List.any_eq_true] at h
    obtain ⟨g', hg'mem, hg'⟩ := h
    simp only [Bool.and_eq_true, beq_iff_eq] at hg'
    obtain ⟨⟨hd, hl⟩, hst⟩ := hg'
    rcases hfind : findRule gs department level with _ | g
    · exfalso
      rw [findRule, List.find?_eq_none] at hfind
      have := hfind g' hg'mem
      simp [hd, hl] at this
    · have hgmem : g ∈ gs.groups := List.mem_of_find?_eq_some hfind
      have hgpred := List.find?_some hfind
      simp only [Bool.and_eq_true, beq_iff_eq] at hgpred
      by_cases heq : g = g'
      · exact ⟨g, rfl, by rw [heq, hst]⟩
      · exfalso
        exact List.Pairwise.forall hsym huniq hgmem hg'mem heq
          ⟨by rw [hgpred.1, hd], by rw [hgpred.2, hl]⟩
  · rintro ⟨g, hfind, hst⟩
    have hgmem : g ∈ gs.groups := List.mem_of_find?_eq_some hfind
    have hgpred := List.find?_some hfind
    simp only [Bool.and_eq_true, beq_iff_eq] at hgpred
    rw [groupAllowedCheck, List.any_eq_true]
    exact ⟨g, hgmem, by simp [hgpred.1, hgpred.2, hst]⟩

/-- **C5.**  The eligibility gate denies with SessionInactive whenever
the global session flag is off, regardless of the other predicates;
denies with GroupBlocked when the flag is on but the (department, level)
rule is absent or blocked; denies with NotScheduled when the flag is on
and the group is allowed but the student is not in the scheduled set;
and allows exactly when all three predicates hold — the denial reasons
being evaluated in the fixed order session, access group, schedule (each
earlier conjunct holds with no assumption on the later predicates).
The hypothesis reflects the one-rule-per-pair shape maintained by the
access-control admin route (lines 709-731). -/
theorem check_eligibility_gate (gs : GateState) (department level matric : String)
    (huniq : gs.groups.Pairwise
      (fun a b => ¬(a.department = b.department ∧ a.level = b.level))) :
    (sessionOn gs = false →
      checkEligibility gs department level matric = Eligibility.sessionInactive) ∧
    (sessionOn gs = true →
      (findRule gs department level = none ∨
        ∃ g, findRule gs department level = some g ∧ g.status = GroupStatus.blocked) →
      checkEligibility gs department level matric = Eligibility.groupBlocked) ∧
    (sessionOn gs = true →
      (∃ g, findRule gs department level = some g ∧ g.status = GroupStatus.allowed) →
      isScheduled gs matric = false →
      checkEligibility gs department level matric = Eligibility.notScheduled) ∧
    (checkEligibility gs department level matric = Eligibility.allowed ↔
      sessionOn gs = true ∧ groupAllowedCheck gs department level = true ∧
        isScheduled gs matric = true) := by
  refine ⟨?_, ?_, ?_, ?_⟩
  · intro hoff
    simp [checkEligibility, hoff]
  · intro hon hbad
    have hga : groupAllowedCheck gs department level = false := by
      rw [Bool.eq_false_iff, Ne]
      intro htrue
      obtain ⟨g, hfind, hst⟩ := (groupAllowedCheck_iff gs department level huniq).mp htrue
      rcases hbad with hnone | ⟨g', hfind', hst'⟩
      · rw [hnone] at hfind
        exact Option.noConfusion hfind
      · rw [hfind'] at hfind
        rw [Option.some_inj] at hfind
        rw [hfind, hst] at hst'
        exact GroupStatus.noConfusion hst'
    simp [checkEligibility, hon, hga]
  · intro hon hrule hsched
    have hga : groupAllowedCheck gs department level = true :=
      (groupAllowedCheck_iff gs department level huniq).mpr hrule
    simp [checkEligibility, hon, hga, hsched]
  · cases hS : sessionOn gs <;>
      cases hG : groupAllowedCheck gs department level <;>
        cases hI : isScheduled gs matric <;>
          simp [checkEligibility, hS, hG, hI]

/-- **C5, witness.** -/
theorem check_eligibility_gate_witness :
    checkEligibility
        (⟨some true, [⟨"CS", "ND", GroupStatus.allowed⟩], ["M1"]⟩ : GateState)
        "CS" "ND" "M1" = Eligibility.allowed ∧
    checkEligibility
        (⟨some false, [⟨"CS", "ND", GroupStatus.allowed⟩], ["M1"]⟩ : GateState)
        "CS" "ND" "M1" = Eligibility.sessionInactive :=
  ⟨(check_eligibility_gate
      (⟨some true, [⟨"CS", "ND", GroupStatus.allowed⟩], ["M1"]⟩ : GateState)
      "CS" "ND" "M1" (by decide)).2.2.2.mpr (by decide),
   (check_eligibility_gate
      (⟨some false, [⟨"CS", "ND", GroupStatus.allowed⟩], ["M1"]⟩ : GateState)
      "CS" "ND" "M1" (by decide)).1 (by decide)⟩

/-- **C6.**  In every state reachable from server start, the number of
in-flight submissions never exceeds `MAX_CONCURRENT_SUBMISSIONS` (a
queued item is admitted by `drainStep` only below the cap), and from any
such state a run of completion events — taken here with outcome
`ok = false`, i.e. every processing attempt failing — drains the system:
queue and in-flight set empty and every arrived item completed, so K
enqueued submissions see at most 25 processing simultaneously and all K
eventually complete, failures never stalling the queue. -/
theorem queue_cap_and_self_drain (s : QState)
    (h : Reachable MAX_CONCURRENT_SUBMISSIONS s) :
    s.processing.length ≤ MAX_CONCURRENT_SUBMISSIONS ∧
    ∃ t, Reaches MAX_CONCURRENT_SUBMISSIONS s t ∧ t.queue = [] ∧ t.processing = [] ∧
      t.done.Perm s.arrived := by
  have hinv := qinv_reachable h
  refine ⟨hinv.1, ?_⟩
  obtain ⟨t, hr, hq, hp, harr, hinv'⟩ :=
    queue_drains MAX_CONCURRENT_SUBMISSIONS
      (by norm_num [MAX_CONCURRENT_SUBMISSIONS])
      (s.queue.length + s.processing.length) s hinv rfl
  refine ⟨t, hr, hq, hp, ?_⟩
  have h2 := hinv'.2.1
  have h3 := hinv'.2.2.1
  rw [hq, List.append_nil] at h2
  rw [hp, List.append_nil] at h3
  have hmain : t.done.Perm t.admitted := h3.symm
  rw [← h2, harr] at hmain
  exact hmain

/-- **C6, witness.**  The state right after one enqueue-and-drain. -/
theorem queue_cap_and_self_drain_witness :
    Reachable MAX_CONCURRENT_SUBMISSIONS
      (drainStep MAX_CONCURRENT_SUBMISSIONS (enqueueReq 0 QState.init)) ∧
    ((drainStep MAX_CONCURRENT_SUBMISSIONS (enqueueReq 0 QState.init)).processing.length ≤
        MAX_CONCURRENT_SUBMISSIONS ∧
      ∃ t, Reaches MAX_CONCURRENT_SUBMISSIONS
          (drainStep MAX_CONCURRENT_SUBMISSIONS (enqueueReq 0 QState.init)) t ∧
        t.queue = [] ∧ t.processing = [] ∧
        t.done.Perm
          (drainStep MAX_CONCURRENT_SUBMISSIONS (enqueueReq 0 QState.init)).arrived) :=
  have hreach : Reachable MAX_CONCURRENT_SUBMISSIONS
      (drainStep MAX_CONCURRENT_SUBMISSIONS (enqueueReq 0 QState.init)) :=
    Relation.ReflTransGen.single (QStep.enqueue 0 QState.init)
  ⟨hreach, queue_cap_and_self_drain _ hreach⟩

/-- **C7.**  Strict FIFO admission: in every reachable state, the full
arrival history equals the admission history followed by the still-queued
items — so for any two enqueued submissions, the earlier-enqueued one is
removed from the queue head and begins processing before the
later-enqueued one (completion order, recorded separately in `done`, is
unconstrained). -/
theorem queue_fifo_admission (s : QState)
    (h : Reachable MAX_CONCURRENT_SUBMISSIONS s) :
    s.arrived = s.admitted ++ s.queue :=
  (qinv_reachable h).2.1

/-- **C7, witness.**  Two enqueue-and-drain events. -/
theorem queue_fifo_admission_witness :
    Reachable MAX_CONCURRENT_SUBMISSIONS
      (drainStep MAX_CONCURRENT_SUBMISSIONS (enqueueReq 1
        (drainStep MAX_CONCURRENT_SUBMISSIONS (enqueueReq 0 QState.init)))) ∧
    (drainStep MAX_CONCURRENT_SUBMISSIONS (enqueueReq 1
        (drainStep MAX_CONCURRENT_SUBMISSIONS (enqueueReq 0 QState.init)))).arrived =
      (drainStep MAX_CONCURRENT_SUBMISSIONS (enqueueReq 1
        (drainStep MAX_CONCURRENT_SUBMISSIONS (enqueueReq 0 QState.init)))).admitted ++
      (drainStep MAX_CONCURRENT_SUBMISSIONS (enqueueReq 1
        (drainStep MAX_CONCURRENT_SUBMISSIONS (enqueueReq 0 QState.init)))).queue :=
  have hreach : Reachable MAX_CONCURRENT_SUBMISSIONS
      (drainStep MAX_CONCURRENT_SUBMISSIONS (enqueueReq 1
        (drainStep MAX_CONCURRENT_SUBMISSIONS (enqueueReq 0 QState.init)))) :=
    Relation.ReflTransGen.tail
      (Relation.ReflTransGen.single (QStep.enqueue 0 QState.init))
      (QStep.enqueue 1 (drainStep MAX_CONCURRENT_SUBMISSIONS (enqueueReq 0 QState.init)))
  ⟨hreach, queue_fifo_admission _ hreach⟩

end TestPro
